import Mathlib

/-!
Verification of the go-socks5 SOCKS5 proxy server core against its
specification.  Byte strings are modelled as `List Nat` (each element a
byte value), fallible Go functions return `Except String`, and the
stateful UDP relay is modelled by explicit state passing over event
lists.  Definitions are shallow embeddings of the Go source; the few
pieces of the repository whose source file is absent (the request
parser `request.go`) are modelled from the specification and marked as
such in their doc comments.
-/

namespace GoSocks5

/-! Protocol constants.

`ipv4Address`, `fqdnAddress` and `ipv6Address` are the ATYP byte values
used throughout `datagram.go`; they are declared in the repository's
request-parsing file (absent from the sources given), with the values
fixed by the SOCKS5 wire format (spec: ATYP IPv4=0x01, FQDN=0x03,
IPv6=0x04).  `socks5Version` is from socks5.go. -/

def ipv4Address : Nat := 1

def fqdnAddress : Nat := 3

def ipv6Address : Nat := 4

def socks5Version : Nat := 5

/-! The UDP datagram codec (datagram.go). -/

/-- Embedding of `Datagram` (datagram.go:13-30).  The `memCreater`
field is allocation bookkeeping with no observable content and is
omitted; the byte-slice fields become `List Nat`. -/
structure Datagram where
  Rsv : List Nat
  Frag : Nat
  ATyp : Nat
  DstAddr : List Nat
  DstPort : List Nat
  Data : List Nat
deriving Repr, DecidableEq

/-- The bytes that `Datagram.toBytes` (datagram.go:38-57) writes into
the caller's buffer, in order: RSV, FRAG, ATYP, DST.ADDR, DST.PORT,
DATA. -/
def Datagram.toBytesData (d : Datagram) : List Nat :=
  d.Rsv ++ d.Frag :: d.ATyp :: (d.DstAddr ++ d.DstPort ++ d.Data)

/-- The return value of `Datagram.toBytes` (datagram.go:38-57): `-1`
when the computed total length exceeds the buffer, the total length
otherwise.  (The source computes the total with the literal `2` for
the RSV field; it equals `d.toBytesData.length` whenever `d.Rsv` has
length 2, which holds for every datagram the package constructs.) -/
def Datagram.toBytesRet (d : Datagram) (bufLen : Nat) : Int :=
  let totalLen := 2 + 1 + 1 + d.DstAddr.length + d.DstPort.length + d.Data.length
  if totalLen > bufLen then -1 else (totalLen : Int)

/-- Embedding of `NewDatagramFromByte` (datagram.go:79-167), the UDP
datagram parser.  Field extraction mirrors the source's `needLen`
slice arithmetic; the allocation-and-copy steps at datagram.go:148-165
produce value-equal fields and are kept as the field values. -/
def NewDatagramFromByte (bs : List Nat) : Except String Datagram :=
  let dataLen := bs.length
  if dataLen ≤ 4 then .error "Datagram Illegal"
  else
    let frag := bs.getD 2 0
    if frag ≠ 0 then .error "Datagram Not Support Slice Transmission"
    else
      let aTyp := bs.getD 3 0
      let addrRes : Except String (Nat × List Nat) :=
        if aTyp = ipv4Address then
          if dataLen < 8 then .error "Datagram Illegal"
          else .ok (8, (bs.drop 4).take 4)
        else if aTyp = ipv6Address then
          if dataLen < 20 then .error "Datagram Illegal"
          else .ok (20, (bs.drop 4).take 16)
        else if aTyp = fqdnAddress then
          if dataLen < 5 then .error "Datagram Illegal"
          else
            let domainLen := bs.getD 4 0
            if domainLen = 0 then .error "Datagram Illegal"
            else if dataLen < 5 + domainLen then .error "Datagram Illegal"
            else .ok (5 + domainLen, (bs.drop 5).take domainLen)
        else .error "Datagram Illegal"
      match addrRes with
      | .error e => .error e
      | .ok (addrEnd, dstAddr) =>
        let needLen := addrEnd + 2
        if dataLen < needLen then .error "Datagram Illegal"
        else
          let dstPort := (bs.drop addrEnd).take 2
          if dstPort.getD 0 0 = 0 ∧ dstPort.getD 1 0 = 0 then
            .error "Datagram Illegal"
          else
            let data := bs.drop needLen
            if data.length = 0 then .error "Datagram Has No Data"
            else .ok ⟨bs.take 2, frag, aTyp, dstAddr, dstPort, data⟩

/-- Embedding of `NewDatagram` (datagram.go:177-204): builds a datagram
with RSV `[0,0]` and FRAG `0`, prepending the length byte
(`byte(len(dstAddr))`, hence mod 256) to a FQDN address. -/
def NewDatagram (aTyp : Nat) (dstAddr dstPort data : List Nat) : Datagram :=
  let dstAddr' := if aTyp = fqdnAddress then (dstAddr.length % 256) :: dstAddr else dstAddr
  ⟨[0, 0], 0, aTyp, dstAddr', dstPort, data⟩

/-- The `toBytesData` of a `NewDatagram`-built datagram, flattened to wire
form: RSV `0 0`, FRAG `0`, the ATYP byte, then address (with the FQDN
length byte prepended), port, payload. -/
theorem toBytesData_NewDatagram (aTyp : Nat) (addr port data : List Nat) :
    (NewDatagram aTyp addr port data).toBytesData =
      0 :: 0 :: 0 :: aTyp ::
        ((if aTyp = fqdnAddress then (addr.length % 256) :: addr else addr) ++
          port ++ data) := by
  by_cases h : aTyp = fqdnAddress <;>
    simp [NewDatagram, Datagram.toBytesData, h]

/-- Parsing well-formed IPv4 datagram bytes succeeds with the expected
fields. -/
theorem NewDatagramFromByte_ipv4 (addr port data : List Nat)
    (ha : addr.length = 4) (hp2 : port.length = 2)
    (hp : ¬(port.getD 0 0 = 0 ∧ port.getD 1 0 = 0)) (hd : data ≠ []) :
    NewDatagramFromByte (0 :: 0 :: 0 :: ipv4Address :: (addr ++ port ++ data)) =
      .ok ⟨[0, 0], 0, ipv4Address, addr, port, data⟩ := by
  obtain ⟨p0, p1, rfl⟩ := List.length_eq_two.mp hp2
  simp only [List.getD_cons_zero, List.getD_cons_succ] at hp
  have hdlen : 0 < data.length := List.length_pos.mpr hd
  have hne : data.length ≠ 0 := Nat.pos_iff_ne_zero.mp hdlen
  have hdrop4 : List.drop 4 (0 :: 0 :: 0 :: 1 :: (addr ++ [p0, p1] ++ data)) =
      addr ++ (p0 :: p1 :: data) := by
    simp [List.append_assoc]
  have hlen : (0 :: 0 :: 0 :: 1 :: (addr ++ [p0, p1] ++ data)).length = 10 + data.length := by
    simp [ha]; omega
  have hgd4 : (addr ++ (p0 :: p1 :: data))[4]? = some p0 := by
    rw [List.getElem?_append_right (by omega)]
    simp [ha]
  have hgd5 : (addr ++ (p0 :: p1 :: data))[5]? = some p1 := by
    rw [List.getElem?_append_right (by omega)]
    simp [ha]
  have hdropA4 : List.drop 4 (addr ++ (p0 :: p1 :: data)) = p0 :: p1 :: data := by
    rw [show (4 : Nat) = addr.length from ha.symm, List.drop_left]
  have hdropA6 : List.drop 6 (addr ++ (p0 :: p1 :: data)) = data := by
    rw [show (6 : Nat) = addr.length + 2 from by omega, List.drop_append]
    rfl
  have htakeA : List.take 4 (addr ++ (p0 :: p1 :: data)) = addr := List.take_left' ha
  simp only [NewDatagramFromByte, ipv4Address, fqdnAddress, ipv6Address,
    List.getD_cons_succ, List.getD_cons_zero, hlen, hdrop4, hdropA4, hdropA6, htakeA,
    hgd4, hgd5, ne_eq]
  simp_arith [hp, hne, ha]
  rw [if_neg (by omega), hdropA6]

/-- Parsing well-formed IPv6 datagram bytes succeeds with the expected
fields. -/
theorem NewDatagramFromByte_ipv6 (addr port data : List Nat)
    (ha : addr.length = 16) (hp2 : port.length = 2)
    (hp : ¬(port.getD 0 0 = 0 ∧ port.getD 1 0 = 0)) (hd : data ≠ []) :
    NewDatagramFromByte (0 :: 0 :: 0 :: ipv6Address :: (addr ++ port ++ data)) =
      .ok ⟨[0, 0], 0, ipv6Address, addr, port, data⟩ := by
  obtain ⟨p0, p1, rfl⟩ := List.length_eq_two.mp hp2
  simp only [List.getD_cons_zero, List.getD_cons_succ] at hp
  have hdlen : 0 < data.length := List.length_pos.mpr hd
  have hne : data.length ≠ 0 := Nat.pos_iff_ne_zero.mp hdlen
  have hdrop4 : List.drop 4 (0 :: 0 :: 0 :: 4 :: (addr ++ [p0, p1] ++ data)) =
      addr ++ (p0 :: p1 :: data) := by
    simp [List.append_assoc]
  have hlen : (0 :: 0 :: 0 :: 4 :: (addr ++ [p0, p1] ++ data)).length = 22 + data.length := by
    simp [ha]; omega
  have hgd16 : (addr ++ (p0 :: p1 :: data))[16]? = some p0 := by
    rw [List.getElem?_append_right (by omega)]
    simp [ha]
  have hgd17 : (addr ++ (p0 :: p1 :: data))[17]? = some p1 := by
    rw [List.getElem?_append_right (by omega)]
    simp [ha]
  have hdropA16 : List.drop 16 (addr ++ (p0 :: p1 :: data)) = p0 :: p1 :: data := by
    rw [show (16 : Nat) = addr.length from ha.symm, List.drop_left]
  have hdropA18 : List.drop 18 (addr ++ (p0 :: p1 :: data)) = data := by
    rw [show (18 : Nat) = addr.length + 2 from by omega, List.drop_append]
    rfl
  have htakeA : List.take 16 (addr ++ (p0 :: p1 :: data)) = addr := List.take_left' ha
  simp only [NewDatagramFromByte, ipv4Address, fqdnAddress, ipv6Address,
    List.getD_cons_succ, List.getD_cons_zero, hlen, hdrop4, hdropA16, hdropA18, htakeA,
    hgd16, hgd17, ne_eq]
  simp_arith [hp, hne, ha]
  rw [if_neg (by omega), hdropA18]

/-- Parsing well-formed FQDN datagram bytes succeeds; in the result the
destination address holds the domain bytes with no leading length
byte. -/
theorem NewDatagramFromByte_fqdn (domain port data : List Nat)
    (hdom : domain ≠ []) (hp2 : port.length = 2)
    (hp : ¬(port.getD 0 0 = 0 ∧ port.getD 1 0 = 0)) (hd : data ≠ []) :
    NewDatagramFromByte
        (0 :: 0 :: 0 :: fqdnAddress :: domain.length :: (domain ++ port ++ data)) =
      .ok ⟨[0, 0], 0, fqdnAddress, domain, port, data⟩ := by
  obtain ⟨p0, p1, rfl⟩ := List.length_eq_two.mp hp2
  simp only [List.getD_cons_zero, List.getD_cons_succ] at hp
  have hform : domain ++ [p0, p1] ++ data = domain ++ p0 :: p1 :: data := by simp
  rw [hform]
  have hdlen : 0 < data.length := List.length_pos.mpr hd
  have hne : data.length ≠ 0 := Nat.pos_iff_ne_zero.mp hdlen
  have hdmlen : 0 < domain.length := List.length_pos.mpr hdom
  have e5 : List.drop 5
      (0 :: 0 :: 0 :: 3 :: domain.length :: (domain ++ p0 :: p1 :: data)) =
      domain ++ p0 :: p1 :: data := rfl
  have hlen : (0 :: 0 :: 0 :: 3 :: domain.length :: (domain ++ p0 :: p1 :: data)).length =
      7 + domain.length + data.length := by
    simp; omega
  have hdropD : List.drop domain.length (domain ++ p0 :: p1 :: data) = p0 :: p1 :: data :=
    List.drop_left domain (p0 :: p1 :: data)
  have hdropD2 : List.drop (domain.length + 2) (domain ++ p0 :: p1 :: data) = data := by
    rw [List.drop_append]
    rfl
  have htakeD : List.take domain.length (domain ++ p0 :: p1 :: data) = domain :=
    List.take_left domain (p0 :: p1 :: data)
  have hBigA : List.drop (5 + domain.length)
      (0 :: 0 :: 0 :: 3 :: domain.length :: (domain ++ p0 :: p1 :: data)) =
      p0 :: p1 :: data := by
    rw [← List.drop_drop, e5, hdropD]
  have hBigA2 : List.drop (5 + domain.length + 2)
      (0 :: 0 :: 0 :: 3 :: domain.length :: (domain ++ p0 :: p1 :: data)) = data := by
    rw [show 5 + domain.length + 2 = 5 + (domain.length + 2) from by omega,
      ← List.drop_drop, e5, hdropD2]
  simp only [NewDatagramFromByte, ipv4Address, fqdnAddress, ipv6Address,
    List.getD_cons_succ, List.getD_cons_zero, hlen, e5, hdropD, hdropD2, htakeD,
    hBigA, hBigA2, ne_eq]
  simp_arith [hp, hne, hBigA, hBigA2, hlen, hdropD, hdropD2, htakeD,
    Nat.pos_iff_ne_zero.mp hdmlen]

/-! Datagram.Address (datagram.go:60-69) and the claims C2, C7, C9.

`Datagram.Address` formats the destination as `host:port` via
`net.JoinHostPort`.  The Go standard library's IP formatter
(`net.IP(..).String()`) is an external collaborator and is abstracted
as the `ipString` parameter; `net.JoinHostPort` is modelled after its
documented behaviour (bracket the host when it contains a colon or a
percent sign). -/

/-- Bytes rendered as a string, one character per byte value (the Go
`string(bytes)` / `bytes.Buffer.String()` conversion). -/
def stringOfBytes (bs : List Nat) : String := String.mk (bs.map Char.ofNat)

/-- Model of Go `net.JoinHostPort`. -/
def joinHostPort (host port : String) : String :=
  if host.contains ':' || host.contains '%' then
    "[" ++ host ++ "]:" ++ port
  else host ++ ":" ++ port

/-- Model of Go `binary.BigEndian.Uint16` on a 2-byte slice. -/
def bigEndianUint16 (bs : List Nat) : Nat := bs.getD 0 0 * 256 + bs.getD 1 0

/-- The host component computed by `Datagram.Address`
(datagram.go:61-66): for FQDN the bytes of `DstAddr[1:]`, otherwise
`net.IP(DstAddr).String()` (the abstracted `ipString`). -/
def Datagram.addressHost (d : Datagram) (ipString : List Nat → String) : String :=
  if d.ATyp = fqdnAddress then stringOfBytes (d.DstAddr.drop 1)
  else ipString d.DstAddr

/-- The port component computed by `Datagram.Address`
(datagram.go:67). -/
def Datagram.addressPort (d : Datagram) : String :=
  toString (bigEndianUint16 d.DstPort)

/-- Embedding of `Datagram.Address` (datagram.go:60-69). -/
def Datagram.Address (d : Datagram) (ipString : List Nat → String) : String :=
  joinHostPort (d.addressHost ipString) d.addressPort

/-- Lemma: `NewDatagram` on a non-FQDN ATYP stores the address bytes
verbatim. -/
theorem NewDatagram_not_fqdn (aTyp : Nat) (addr port data : List Nat)
    (h : aTyp ≠ fqdnAddress) :
    NewDatagram aTyp addr port data = ⟨[0, 0], 0, aTyp, addr, port, data⟩ := by
  unfold NewDatagram
  rw [if_neg h]

/-- Lemma: `NewDatagram` on ATYP FQDN prepends the length byte to the
address. -/
theorem NewDatagram_fqdn (addr port data : List Nat) :
    NewDatagram fqdnAddress addr port data =
      ⟨[0, 0], 0, fqdnAddress, addr.length % 256 :: addr, port, data⟩ := by
  unfold NewDatagram
  rw [if_pos rfl]

/-- Claim C2, as stated, is false: for ATYP=FQDN the round trip is not
the identity.  At the concrete datagram built by
`NewDatagram fqdnAddress [97] [0,80] [1]` (domain "a", port 80, one
data byte), encoding with `toBytes` and re-parsing with
`NewDatagramFromByte` yields `DstAddr = [97]`, while the original
datagram has `DstAddr = [1, 97]` (the length byte is kept by
`NewDatagram` but stripped by the parser), so the parsed datagram
differs from the original. -/
theorem C2_datagram_roundtrip_counterexample :
    NewDatagramFromByte ((NewDatagram fqdnAddress [97] [0, 80] [1]).toBytesData) ≠
      .ok (NewDatagram fqdnAddress [97] [0, 80] [1]) := by
  have h1 : NewDatagramFromByte ((NewDatagram fqdnAddress [97] [0, 80] [1]).toBytesData) =
      .ok ⟨[0, 0], 0, 3, [97], [0, 80], [1]⟩ := rfl
  intro h
  rw [h1] at h
  injection h with h2
  exact absurd h2 (by decide)

/-- Claim C2 (amended): for every well-formed datagram value with
FRAG=0, a non-zero DST.PORT and non-empty DATA, parsing the bytes
produced by encoding it (`NewDatagram` then `toBytes` then
`NewDatagramFromByte`) yields a datagram equal to the original in all
fields for ATYP in \{IPv4, IPv6\}; for ATYP=FQDN the result is equal to
the original in Rsv, Frag, ATyp, DstPort and Data, but its DstAddr is
the original's DstAddr without the leading length byte that
`NewDatagram` prepends. -/
theorem C2_datagram_roundtrip :
    (∀ addr port data : List Nat, addr.length = 4 → port.length = 2 →
        ¬(port.getD 0 0 = 0 ∧ port.getD 1 0 = 0) → data ≠ [] →
        NewDatagramFromByte ((NewDatagram ipv4Address addr port data).toBytesData) =
          .ok (NewDatagram ipv4Address addr port data)) ∧
    (∀ addr port data : List Nat, addr.length = 16 → port.length = 2 →
        ¬(port.getD 0 0 = 0 ∧ port.getD 1 0 = 0) → data ≠ [] →
        NewDatagramFromByte ((NewDatagram ipv6Address addr port data).toBytesData) =
          .ok (NewDatagram ipv6Address addr port data)) ∧
    (∀ addr port data : List Nat, 1 ≤ addr.length → addr.length ≤ 255 →
        port.length = 2 →
        ¬(port.getD 0 0 = 0 ∧ port.getD 1 0 = 0) → data ≠ [] →
        NewDatagramFromByte ((NewDatagram fqdnAddress addr port data).toBytesData) =
          .ok ⟨[0, 0], 0, fqdnAddress, addr, port, data⟩ ∧
        (NewDatagram fqdnAddress addr port data).DstAddr = addr.length % 256 :: addr) := by
  refine ⟨?_, ?_, ?_⟩
  · intro addr port data h4 h2 hp hd
    rw [NewDatagram_not_fqdn ipv4Address addr port data (by decide)]
    have e : Datagram.toBytesData ⟨[0, 0], 0, ipv4Address, addr, port, data⟩ =
        0 :: 0 :: 0 :: ipv4Address :: (addr ++ port ++ data) := by
      simp [Datagram.toBytesData]
    rw [e]
    exact NewDatagramFromByte_ipv4 addr port data h4 h2 hp hd
  · intro addr port data h16 h2 hp hd
    rw [NewDatagram_not_fqdn ipv6Address addr port data (by decide)]
    have e : Datagram.toBytesData ⟨[0, 0], 0, ipv6Address, addr, port, data⟩ =
        0 :: 0 :: 0 :: ipv6Address :: (addr ++ port ++ data) := by
      simp [Datagram.toBytesData]
    rw [e]
    exact NewDatagramFromByte_ipv6 addr port data h16 h2 hp hd
  · intro addr port data h1 h255 h2 hp hd
    have hmod : addr.length % 256 = addr.length := Nat.mod_eq_of_lt (by omega)
    refine ⟨?_, by rw [NewDatagram_fqdn]⟩
    rw [NewDatagram_fqdn]
    have e : Datagram.toBytesData
        ⟨[0, 0], 0, fqdnAddress, addr.length % 256 :: addr, port, data⟩ =
        0 :: 0 :: 0 :: fqdnAddress :: addr.length :: (addr ++ port ++ data) := by
      simp [Datagram.toBytesData, hmod]
    rw [e]
    exact NewDatagramFromByte_fqdn addr port data (List.length_pos.mp (by omega)) h2 hp hd

/-- Witness for C2 at a concrete IPv4 datagram (127.0.0.1:80, one data
byte). -/
theorem C2_datagram_roundtrip_witness :
    NewDatagramFromByte ((NewDatagram ipv4Address [127, 0, 0, 1] [0, 80] [112]).toBytesData) =
      .ok (NewDatagram ipv4Address [127, 0, 0, 1] [0, 80] [112]) :=
  C2_datagram_roundtrip.1 [127, 0, 0, 1] [0, 80] [112] rfl rfl (by decide) (by decide)

/-- Claim C7: `NewDatagramFromByte` never succeeds with a DST.PORT
whose two bytes are both zero (first conjunct: every successful parse
has a non-zero port; second conjunct: a concrete well-formed buffer
with port bytes `0 0` is rejected), yet an all-zero DST.ADDR (IPv4
0.0.0.0) with FRAG=0, non-zero port and non-empty data parses
successfully (third conjunct). -/
theorem C7_port_zero_rejected_addr_zero_ok :
    (∀ bs d, NewDatagramFromByte bs = .ok d →
        ¬(d.DstPort.getD 0 0 = 0 ∧ d.DstPort.getD 1 0 = 0)) ∧
    NewDatagramFromByte [0, 0, 0, 1, 1, 2, 3, 4, 0, 0, 99] = .error "Datagram Illegal" ∧
    NewDatagramFromByte [0, 0, 0, 1, 0, 0, 0, 0, 34, 184, 112] =
      .ok ⟨[0, 0], 0, ipv4Address, [0, 0, 0, 0], [34, 184], [112]⟩ := by
  refine ⟨?_, rfl, rfl⟩
  intro bs d h
  simp only [NewDatagramFromByte] at h
  repeat' split at h
  all_goals simp_all
  rename_i hport hdatalen
  subst h
  simp only [List.getElem?_take, List.getElem?_drop] at *
  simpa using hport

/-- Witness for C7: the universally quantified conjunct applied to the
concrete all-zero-address datagram of the third conjunct. -/
theorem C7_port_zero_rejected_addr_zero_ok_witness :
    ¬(List.getD [34, 184] 0 0 = 0 ∧ List.getD [34, 184] 1 0 = 0) :=
  C7_port_zero_rejected_addr_zero_ok.1 [0, 0, 0, 1, 0, 0, 0, 0, 34, 184, 112]
    ⟨[0, 0], 0, ipv4Address, [0, 0, 0, 0], [34, 184], [112]⟩
    C7_port_zero_rejected_addr_zero_ok.2.2

/-- Claim C9: a parsed FQDN datagram stores the domain bytes without
the leading length byte (first conjunct), `NewDatagram` stores the
length byte as the first DstAddr element (second conjunct),
`Datagram.Address` always drops the first DstAddr byte for FQDN (third
conjunct); consequently, on the parsed FQDN datagram for domain "abc"
the address host is "bc" — the domain missing its first character
(fourth conjunct). -/
theorem C9_fqdn_parse_addr_shift :
    (∀ bs d, NewDatagramFromByte bs = .ok d → d.ATyp = fqdnAddress →
        d.DstAddr = (bs.drop 5).take (bs.getD 4 0)) ∧
    (∀ addr port data : List Nat,
        (NewDatagram fqdnAddress addr port data).DstAddr = addr.length % 256 :: addr) ∧
    (∀ (d : Datagram) (ipString : List Nat → String), d.ATyp = fqdnAddress →
        d.Address ipString =
          joinHostPort (stringOfBytes (d.DstAddr.drop 1)) d.addressPort) ∧
    (∀ ipString : List Nat → String,
        NewDatagramFromByte [0, 0, 0, 3, 3, 97, 98, 99, 0, 80, 120] =
          .ok ⟨[0, 0], 0, fqdnAddress, [97, 98, 99], [0, 80], [120]⟩ ∧
        Datagram.addressHost (⟨[0, 0], 0, fqdnAddress, [97, 98, 99], [0, 80], [120]⟩ : Datagram)
            ipString = "bc" ∧
        Datagram.Address (⟨[0, 0], 0, fqdnAddress, [97, 98, 99], [0, 80], [120]⟩ : Datagram)
            ipString = joinHostPort "bc" "80") := by
  refine ⟨?_, ?_, ?_, ?_⟩
  · intro bs d h hA
    simp only [NewDatagramFromByte] at h
    repeat' split at h
    all_goals simp_all
    rename_i heq hlen2 hport hdata
    subst h
    simp only [fqdnAddress] at hA
    repeat' split at heq
    all_goals simp_all [ipv4Address, ipv6Address]
  · intro addr port data
    rw [NewDatagram_fqdn]
  · intro d ipString h
    simp [Datagram.Address, Datagram.addressHost, h]
  · intro ipString
    have hhost : Datagram.addressHost
        (⟨[0, 0], 0, fqdnAddress, [97, 98, 99], [0, 80], [120]⟩ : Datagram) ipString =
        "bc" := by
      have e : Datagram.addressHost
          (⟨[0, 0], 0, fqdnAddress, [97, 98, 99], [0, 80], [120]⟩ : Datagram) ipString =
          stringOfBytes [98, 99] := by
        simp [Datagram.addressHost]
      rw [e]
      decide
    refine ⟨rfl, hhost, ?_⟩
    unfold Datagram.Address
    rw [hhost]
    have hport : Datagram.addressPort
        (⟨[0, 0], 0, fqdnAddress, [97, 98, 99], [0, 80], [120]⟩ : Datagram) = "80" := by
      decide
    rw [hport]

/-- Witness for C9: the parsed-FQDN conjunct applied to the concrete
"abc" datagram of the fourth conjunct. -/
theorem C9_fqdn_parse_addr_shift_witness :
    ([97, 98, 99] : List Nat) =
      (([0, 0, 0, 3, 3, 97, 98, 99, 0, 80, 120] : List Nat).drop 5).take
        (([0, 0, 0, 3, 3, 97, 98, 99, 0, 80, 120] : List Nat).getD 4 0) :=
  C9_fqdn_parse_addr_shift.1 [0, 0, 0, 3, 3, 97, 98, 99, 0, 80, 120]
    ⟨[0, 0], 0, fqdnAddress, [97, 98, 99], [0, 80], [120]⟩ rfl rfl

/-! Authentication (auth.go) and the claims C3, C6.

Authenticator instances are dynamically dispatched Go interface values;
they are modelled by an arbitrary type `A`, and `s.authMethods` (the
code-to-authenticator map built by `New`) by a function
`Nat → Option A`.  Reading from the connection is modelled by consuming
a prefix of a byte list; a read past the end of the list is the EOF
error.  `UserPassAuthenticate` returns the bytes the authenticator
writes to the connection together with its result. -/

def NoAuth : Nat := 0

def noAcceptable : Nat := 255

def UserPassAuth : Nat := 2

def userAuthVersion : Nat := 1

def authSuccess : Nat := 0

def authFailure : Nat := 1

/-- Embedding of `AuthContext` (auth.go:37-45); the Go
`map[string]string` payload is modelled as an association list. -/
structure AuthContext where
  Method : Nat
  Payload : List (String × String)
deriving Repr, DecidableEq

/-- Embedding of `readMethods` (auth.go:165-175): one byte NMETHODS,
then that many method bytes; returns the methods and the unread rest
of the stream. -/
def readMethods (input : List Nat) : Except String (List Nat × List Nat) :=
  match input with
  | [] => .error "EOF"
  | n :: rest =>
    if rest.length < n then .error "EOF"
    else .ok (rest.take n, rest.drop n)

/-- The selection loop of `Server.authenticate` (auth.go:148-152):
first client-offered method whose code is in the registry, together
with its authenticator. -/
def selectAuth {A : Type} (authMethods : Nat → Option A) : List Nat → Option (Nat × A)
  | [] => none
  | m :: ms =>
    match authMethods m with
    | some c => some (m, c)
    | none => selectAuth authMethods ms

/-- Embedding of `Server.authenticate` (auth.go:140-156) together with
`noAcceptableAuth` (auth.go:159-162).  The first component is the
bytes `authenticate` itself writes to the connection; `.ok (m, c)`
means the handshake of authenticator `c` (registered for code `m`) is
invoked. -/
def authenticate {A : Type} (authMethods : Nat → Option A) (input : List Nat) :
    List Nat × Except String (Nat × A) :=
  match readMethods input with
  | .error e => ([], .error ("Failed to get auth methods: " ++ e))
  | .ok (methods, _) =>
    match selectAuth authMethods methods with
    | some (m, cator) => ([], .ok (m, cator))
    | none => ([socks5Version, noAcceptable], .error "No supported authentication mechanism")

/-- The selection loop agrees with `List.find?` on a successful
search. -/
theorem selectAuth_of_find_some {A : Type} (S : Nat → Option A) (ms : List Nat)
    (m : Nat) (c : A) (hf : ms.find? (fun x => (S x).isSome) = some m)
    (hc : S m = some c) : selectAuth S ms = some (m, c) := by
  induction ms with
  | nil => simp at hf
  | cons a as ih =>
    by_cases hA : (S a).isSome
    · rw [List.find?_cons_of_pos _ (by simpa using hA)] at hf
      injection hf with hf
      subst hf
      unfold selectAuth
      rw [hc]
    · rw [List.find?_cons_of_neg _ (by simpa using hA)] at hf
      unfold selectAuth
      rw [Option.not_isSome_iff_eq_none.mp hA]
      exact ih hf

/-- The selection loop agrees with `List.find?` on a failed search. -/
theorem selectAuth_of_find_none {A : Type} (S : Nat → Option A) (ms : List Nat)
    (hf : ms.find? (fun x => (S x).isSome) = none) : selectAuth S ms = none := by
  induction ms with
  | nil => rfl
  | cons a as ih =>
    by_cases h : (S a).isSome
    · rw [List.find?_cons_of_pos _ (by simpa using h)] at hf
      exact absurd hf (by simp)
    · rw [List.find?_cons_of_neg _ (by simpa using h)] at hf
      unfold selectAuth
      rw [Option.not_isSome_iff_eq_none.mp h]
      exact ih hf

/-- Claim C3: for every client-offered method list M and registry S,
negotiation selects exactly the first element m of M (in received
order) with m registered in S and invokes that authenticator's
handshake (first conjunct, with `List.find?` expressing "first");
if no element of M is registered, the server writes the two bytes
`[5, 0xFF]` and fails the connection with the no-acceptable-auth
error (second conjunct). -/
theorem C3_method_negotiation :
    (∀ (A : Type) (S : Nat → Option A) (methods rest : List Nat) (m : Nat) (c : A),
        methods.find? (fun x => (S x).isSome) = some m → S m = some c →
        authenticate S (methods.length :: (methods ++ rest)) = ([], .ok (m, c))) ∧
    (∀ (A : Type) (S : Nat → Option A) (methods rest : List Nat),
        methods.find? (fun x => (S x).isSome) = none →
        authenticate S (methods.length :: (methods ++ rest)) =
          ([socks5Version, noAcceptable],
           .error "No supported authentication mechanism")) := by
  have hread : ∀ (methods rest : List Nat),
      readMethods (methods.length :: (methods ++ rest)) = .ok (methods, rest) := by
    intro methods rest
    have hlt : ¬(methods ++ rest).length < methods.length := by simp
    simp [readMethods, hlt, List.take_left, List.drop_left]
  constructor
  · intro A S methods rest m c hf hc
    simp [authenticate, hread, selectAuth_of_find_some S methods m c hf hc]
  · intro A S methods rest hf
    simp [authenticate, hread, selectAuth_of_find_none S methods hf]

/-- Witness for C3: offered methods `[0, 2]` against a registry holding
only code 2 select method 2; offered `[1]` against the same registry
produce `[5, 0xFF]` and the no-acceptable-auth error. -/
theorem C3_method_negotiation_witness :
    authenticate (fun m => if m = 2 then some 99 else none) [2, 0, 2] = ([], .ok (2, 99)) ∧
    authenticate (fun m => if m = 2 then some 99 else none) [1, 1] =
      ([socks5Version, noAcceptable], .error "No supported authentication mechanism") :=
  ⟨C3_method_negotiation.1 Nat (fun m => if m = 2 then some 99 else none)
      [0, 2] [] 2 99 (by decide) (by decide),
    C3_method_negotiation.2 Nat (fun m => if m = 2 then some 99 else none)
      [1] [] (by decide)⟩

/-- Embedding of `UserPassAuthenticator.Authenticate` (auth.go:86-136)
over a credential store `valid` (the `CredentialStore.Valid` method)
and an input byte stream.  First component: the bytes written to the
connection ( `[5,2]`, then `[1,0]` or `[1,1]` ). -/
def UserPassAuthenticate (valid : String → String → Bool) (input : List Nat) :
    List Nat × Except String AuthContext :=
  let w0 := [socks5Version, UserPassAuth]
  match input with
  | [] => (w0, .error "EOF")
  | [_] => (w0, .error "EOF")
  | v :: ulen :: rest2 =>
    if v ≠ userAuthVersion then (w0, .error "Unsupported auth version")
    else if rest2.length < ulen then (w0, .error "EOF")
    else
      let user := rest2.take ulen
      match rest2.drop ulen with
      | [] => (w0, .error "EOF")
      | plen :: rest4 =>
        if rest4.length < plen then (w0, .error "EOF")
        else
          let pass := rest4.take plen
          if valid (stringOfBytes user) (stringOfBytes pass) then
            (w0 ++ [userAuthVersion, authSuccess],
             .ok ⟨UserPassAuth, [("Username", stringOfBytes user)]⟩)
          else
            (w0 ++ [userAuthVersion, authFailure], .error "User authentication failed")

/-- Claim C6: on a well-formed sub-negotiation request carrying
username `user` and password `pass`, the server writes `[1, 0x00]` if
and only if the credential store validates the pair — in which case it
returns an AuthContext with method UserPass and payload
`\x7b"Username": user\x7d` — and otherwise writes `[1, 0x01]` and fails
with the user-auth-failed error (which `ServeConn`, socks5.go:429-434,
turns into failing the whole connection). -/
theorem C6_userpass_subnegotiation :
    ∀ (valid : String → String → Bool) (user pass rest : List Nat),
      (valid (stringOfBytes user) (stringOfBytes pass) = true →
        UserPassAuthenticate valid
            (userAuthVersion :: user.length :: (user ++ pass.length :: (pass ++ rest))) =
          ([socks5Version, UserPassAuth, userAuthVersion, authSuccess],
           .ok ⟨UserPassAuth, [("Username", stringOfBytes user)]⟩)) ∧
      (valid (stringOfBytes user) (stringOfBytes pass) = false →
        UserPassAuthenticate valid
            (userAuthVersion :: user.length :: (user ++ pass.length :: (pass ++ rest))) =
          ([socks5Version, UserPassAuth, userAuthVersion, authFailure],
           .error "User authentication failed")) := by
  intro valid user pass rest
  have hu : ¬(user ++ pass.length :: (pass ++ rest)).length < user.length := by
    simp
  have hp : ¬(pass ++ rest).length < pass.length := by simp
  have hdropU : (user ++ pass.length :: (pass ++ rest)).drop user.length =
      pass.length :: (pass ++ rest) := List.drop_left user _
  have htakeU : (user ++ pass.length :: (pass ++ rest)).take user.length = user :=
    List.take_left user _
  constructor
  · intro hv
    simp [UserPassAuthenticate, userAuthVersion, hu, hp, hdropU, htakeU,
      List.take_left, hv]
  · intro hv
    simp [UserPassAuthenticate, userAuthVersion, hu, hp, hdropU, htakeU,
      List.take_left, hv]

/-- Witness for C6: user "a", password "b" against an always-accepting
store and an always-rejecting store. -/
theorem C6_userpass_subnegotiation_witness :
    UserPassAuthenticate (fun _ _ => true) [1, 1, 97, 1, 98] =
      ([socks5Version, UserPassAuth, userAuthVersion, authSuccess],
       .ok ⟨UserPassAuth, [("Username", stringOfBytes [97])]⟩) ∧
    UserPassAuthenticate (fun _ _ => false) [1, 1, 97, 1, 98] =
      ([socks5Version, UserPassAuth, userAuthVersion, authFailure],
       .error "User authentication failed") :=
  ⟨(C6_userpass_subnegotiation (fun _ _ => true) [97] [98] []).1 rfl,
    (C6_userpass_subnegotiation (fun _ _ => false) [97] [98] []).2 rfl⟩

/-! Server construction (socks5.go:292-336) and claim C10.

Go `Authenticator` values are interface instances; `AuthenticatorL C`
models them with the two built-ins (`NoAuthAuthenticator`,
`UserPassAuthenticator` over a credential store of type `C`) and
arbitrary user-supplied implementations carrying their `GetCode`
value.  Other pluggable collaborators (resolver, rules, rewriter,
logger, dialer, allocator) are likewise modelled with a built-in
constructor plus an opaque-handle constructor, or as plain handles,
since `New` only tests them against nil. -/

inductive AuthenticatorL (C : Type) where
  | noAuthA
  | userPassA (creds : C)
  | custom (code : Nat) (tag : Nat)
deriving Repr, DecidableEq

/-- The `GetCode` of the modelled authenticators: `NoAuthAuthenticator`
returns 0 (auth.go:62-64), `UserPassAuthenticator` returns 2
(auth.go:80-82), a custom instance returns its own code. -/
def AuthenticatorL.GetCode {C : Type} : AuthenticatorL C → Nat
  | .noAuthA => NoAuth
  | .userPassA _ => UserPassAuth
  | .custom code _ => code

inductive ResolverL where
  | dnsResolver
  | custom (tag : Nat)
deriving Repr, DecidableEq

/-- Embedding of `PermitCommand` and its constructors (rule-set
source file, `PermitAll` returning `PermitCommand\x7btrue, true, true\x7d`). -/
inductive RuleSetL where
  | PermitCommand (enableConnect enableBind enableAssociate : Bool)
  | custom (tag : Nat)
deriving Repr, DecidableEq

def PermitAll : RuleSetL := .PermitCommand true true true

/-- Embedding of `Config` (socks5.go:224-260). -/
structure Config (C : Type) where
  AuthMethods : List (AuthenticatorL C)
  Credentials : Option C
  Resolver : Option ResolverL
  Rules : Option RuleSetL
  Rewriter : Option Nat
  BindIP : List Nat
  Logger : Option Nat
  Dial : Option Nat
  Mem : Option Nat

/-- Embedding of `Server` (socks5.go:264-274). -/
structure Server (C : Type) where
  config : Config C
  authMethods : Nat → Option (AuthenticatorL C)
  isIPAllowed : List Nat → Bool

/-- The authenticator list after the default rule of New
(socks5.go:294-300): when empty, UserPass if credentials are set,
otherwise NoAuth. -/
def effectiveAuthMethods {C : Type} (conf : Config C) : List (AuthenticatorL C) :=
  if conf.AuthMethods.length = 0 then
    match conf.Credentials with
    | some cred => [.userPassA cred]
    | none => [.noAuthA]
  else conf.AuthMethods

/-- One step of the map-building loop of New (socks5.go:326-328):
`server.authMethods[a.GetCode()] = a`. -/
def authInsert {C : Type} (t : Nat → Option (AuthenticatorL C)) (a : AuthenticatorL C) :
    Nat → Option (AuthenticatorL C) :=
  fun code => if code = a.GetCode then some a else t code

/-- Embedding of `New` (socks5.go:292-336): fill defaults, build the
method-code map, set the allow-all IP predicate, return the server.
The only return statement is `return server, nil`. -/
def New {C : Type} (conf : Config C) : Except String (Server C) :=
  let authMs := effectiveAuthMethods conf
  let resolver := match conf.Resolver with
    | none => some ResolverL.dnsResolver
    | r => r
  let rules := match conf.Rules with
    | none => some PermitAll
    | r => r
  let logger := match conf.Logger with
    | none => some 0
    | l => l
  let conf2 : Config C := ⟨authMs, conf.Credentials, resolver, rules, conf.Rewriter,
    conf.BindIP, logger, conf.Dial, conf.Mem⟩
  let table := authMs.foldl authInsert (fun _ => none)
  .ok ⟨conf2, table, fun _ => true⟩

/-- Folding `authInsert` over a list looks up, for each code, the last
inserted authenticator with that code: the first hit in the reversed
list. -/
theorem foldl_authInsert_code {C : Type} (l : List (AuthenticatorL C))
    (t : Nat → Option (AuthenticatorL C)) (code : Nat) :
    (l.foldl authInsert t) code =
      ((l.reverse.find? (fun a => a.GetCode == code)).map some).getD (t code) := by
  induction l generalizing t with
  | nil => simp
  | cons a as ih =>
    rw [List.foldl_cons, ih, List.reverse_cons, List.find?_append]
    cases hfind : as.reverse.find? (fun x => x.GetCode == code) with
    | some b => simp
    | none =>
      by_cases h : a.GetCode = code
      · subst h
        simp [authInsert]
      · have hne : ¬(code = a.GetCode) := fun hc => h hc.symm
        have hb : (a.GetCode == code) = false := by simpa using h
        simp [authInsert, hne, hb]

/-- Claim C10: `New` never returns an error: every configuration
yields a server whose `authMethods` map sends each code to the last
configured authenticator with that code (`find?` over the reversed
effective list), whose stored config carries the effective
authenticator list, with the documented defaults — UserPass when only
credentials are given, otherwise NoAuth; the DNS resolver; PermitAll
rules; and the allow-all IP predicate. -/
theorem C10_new_never_fails_defaults :
    ∀ (C : Type) (conf : Config C), ∃ s : Server C,
      New conf = .ok s ∧
      (∀ code, s.authMethods code =
        (effectiveAuthMethods conf).reverse.find? (fun a => a.GetCode == code)) ∧
      s.config.AuthMethods = effectiveAuthMethods conf ∧
      (conf.AuthMethods = [] → ∀ cred, conf.Credentials = some cred →
        effectiveAuthMethods conf = [AuthenticatorL.userPassA cred]) ∧
      (conf.AuthMethods = [] → conf.Credentials = none →
        effectiveAuthMethods conf = [AuthenticatorL.noAuthA]) ∧
      s.config.Resolver = some (conf.Resolver.getD ResolverL.dnsResolver) ∧
      s.config.Rules = some (conf.Rules.getD PermitAll) ∧
      (∀ ip, s.isIPAllowed ip = true) := by
  intro C conf
  refine ⟨_, rfl, ?_, rfl, ?_, ?_, ?_, ?_, fun _ => rfl⟩
  · intro code
    show ((effectiveAuthMethods conf).foldl authInsert (fun _ => none)) code = _
    rw [foldl_authInsert_code]
    cases hf : (effectiveAuthMethods conf).reverse.find? (fun a => a.GetCode == code) <;> simp
  · intro hempty cred hcred
    simp [effectiveAuthMethods, hempty, hcred]
  · intro hempty hcred
    simp [effectiveAuthMethods, hempty, hcred]
  · show (match conf.Resolver with | none => some ResolverL.dnsResolver | r => r) = _
    cases conf.Resolver <;> simp
  · show (match conf.Rules with | none => some PermitAll | r => r) = _
    cases conf.Rules <;> simp

/-- Witness for C10: the credentials-only default at a concrete
configuration. -/
theorem C10_new_never_fails_defaults_witness :
    effectiveAuthMethods (⟨[], some 7, none, none, none, [], none, none, none⟩ : Config Nat) =
      [AuthenticatorL.userPassA 7] :=
  ((C10_new_never_fails_defaults Nat
      ⟨[], some 7, none, none, none, [], none, none, none⟩).choose_spec).2.2.2.1 rfl 7 rfl

/-! The UDP ASSOCIATE relay (associate.go) and the claims C1, C8.

`UdpAssociate` is the per-handler flow table (a Go map with `Set`,
`Get`, `Del`, `CloseAll`), modelled as an association list with the
same observable operations; `CloseAll` returns the identities of the
outbound sockets it closes.  A `net.Conn` is represented by a numeric
identity.  The relay loop `readFromSrc` is modelled as a fold over a
list of events: each UDP read either fails (`readErr`) or delivers a
packet together with the environment's response to the dial and write
this packet will trigger (`dialRes`, `writeOk`) and the current time.
The loop carries the conn-ids closed so far and reports whether it has
exited (exit is when teardown — `peers.CloseAll()` and the deferred
`udpServer.Close()` — happens). -/

/-- Embedding of `UdpPeer` (associate.go:13-22); `req` and the
back-pointer to the UDP server carry no per-claim content and are
omitted; `dst` becomes the numeric `connId`.  The source copies
`datagram.DstAddr` and `DstPort` out of the parsed buffer
(associate.go:167-172); the copies are value-equal lists here. -/
structure UdpPeer where
  updateTime : Nat
  fromStr : String
  connId : Nat
  atyp : Nat
  dstAddr : List Nat
  dstPort : List Nat
deriving Repr, DecidableEq

/-- Embedding of `UdpAssociate` (associate.go:25-27): the flow table. -/
structure UdpAssociate where
  m : List (String × UdpPeer)
deriving Repr, DecidableEq

/-- Map lookup `Get` (associate.go:35-38). -/
def UdpAssociate.Get (ua : UdpAssociate) (key : String) : Option UdpPeer :=
  (ua.m.find? (fun kv => kv.1 == key)).map (fun kv => kv.2)

/-- Map insert/overwrite `Set` (associate.go:30-32). -/
def UdpAssociate.Set (ua : UdpAssociate) (key : String) (u : UdpPeer) : UdpAssociate :=
  ⟨(key, u) :: ua.m.filter (fun kv => kv.1 != key)⟩

/-- Map removal `Del` (associate.go:41-43). -/
def UdpAssociate.Del (ua : UdpAssociate) (key : String) : UdpAssociate :=
  ⟨ua.m.filter (fun kv => kv.1 != key)⟩

/-- The `CloseAll` operation (associate.go:46-50): closes every flow's outbound
socket; the returned list is the closed conn-ids. -/
def UdpAssociate.CloseAll (ua : UdpAssociate) : List Nat :=
  ua.m.map (fun kv => kv.2.connId)

/-- Deleting one key leaves every other key's entry unchanged. -/
theorem UdpAssociate.Get_Del_ne (ua : UdpAssociate) (key k : String) (h : k ≠ key) :
    (ua.Del key).Get k = ua.Get k := by
  obtain ⟨m⟩ := ua
  unfold UdpAssociate.Get UdpAssociate.Del
  simp only []
  induction m with
  | nil => rfl
  | cons kv tl ih =>
    by_cases hk : kv.1 = key
    · have h2 : ¬((fun kv : String × UdpPeer => kv.1 == k) kv = true) := by
        simp only [beq_iff_eq]
        exact fun hc => h (hc ▸ hk)
      rw [List.filter_cons_of_neg (by simp [hk]), List.find?_cons_of_neg tl h2]
      exact ih
    · rw [List.filter_cons_of_pos (by simpa using hk)]
      by_cases hc : kv.1 = k
      · rw [List.find?_cons_of_pos _ (by simpa using hc),
          List.find?_cons_of_pos _ (by simpa using hc)]
      · rw [List.find?_cons_of_neg _ (by simpa using hc),
          List.find?_cons_of_neg _ (by simpa using hc)]
        exact ih

/-- Result of one `handleDatagram` call: the table afterwards, the
conn-ids it closed, the conn-ids whose reverse-path task it spawned,
and the error it returned (its caller ignores the error). -/
structure HandleResult where
  peers : UdpAssociate
  closedConns : List Nat
  spawned : List Nat
  res : Option String
deriving Repr, DecidableEq

/-- Embedding of `handleDatagram` (associate.go:137-189).  `dialRes`
is the environment's answer to the dial for a new flow (`.ok connId`
or failure), `writeOk` whether the write to the outbound socket
succeeds, `now` the current `time.Now().Unix()`. -/
def handleDatagram (peers : UdpAssociate) (fromStr : String)
    (ipString : List Nat → String) (d : Datagram) (now : Nat)
    (dialRes : Except String Nat) (writeOk : Bool) : HandleResult :=
  let key := fromStr ++ "-" ++ d.Address ipString
  match peers.Get key with
  | none =>
    match dialRes with
    | .error e => ⟨peers, [], [], some ("Connect failed: " ++ e)⟩
    | .ok connId =>
      let udpPeer : UdpPeer := ⟨now, fromStr, connId, d.ATyp, d.DstAddr, d.DstPort⟩
      let peers1 := peers.Set key udpPeer
      if writeOk then ⟨peers1, [], [connId], none⟩
      else ⟨peers1.Del key, [connId], [connId], none⟩
  | some udpPeer =>
    if writeOk then
      ⟨peers.Set key ⟨now, udpPeer.fromStr, udpPeer.connId, udpPeer.atyp,
        udpPeer.dstAddr, udpPeer.dstPort⟩, [], [], none⟩
    else ⟨peers.Del key, [udpPeer.connId], [], none⟩

/-- One event seen by the relay loop of `readFromSrc`
(associate.go:110-126): a failing UDP read, or a received packet with
the environment's dial/write outcomes for it. -/
inductive UdpEvent where
  | readErr
  | pkt (fromStr : String) (bs : List Nat) (now : Nat)
      (dialRes : Except String Nat) (writeOk : Bool)

/-- Embedding of the `readFromSrc` loop and its teardown
(associate.go:101-134): processes events until a UDP read error or a
datagram parse error breaks the loop, then runs `peers.CloseAll()`;
returns the final table, all conn-ids closed, and whether the loop
exited.  Running out of events while no error occurred leaves the loop
blocked in `ReadFromUdp` (exited = false, no teardown).  The error
`handleDatagram` returns is discarded, as at associate.go:122. -/
def readFromSrcLoop (ipString : List Nat → String) :
    List UdpEvent → UdpAssociate → List Nat → UdpAssociate × List Nat × Bool
  | [], peers, closed => (peers, closed, false)
  | .readErr :: _, peers, closed => (peers, closed ++ peers.CloseAll, true)
  | .pkt f bs now dial w :: rest, peers, closed =>
    match NewDatagramFromByte bs with
    | .error _ => (peers, closed ++ peers.CloseAll, true)
    | .ok d =>
      let r := handleDatagram peers f ipString d now dial w
      readFromSrcLoop ipString rest r.peers (closed ++ r.closedConns)

/-- The body of the drain goroutine started by `doAssociate`
(associate.go:87-90) is exactly `io.Copy(io.Discard, conn)` with the
result discarded: whatever the copy returns (EOF or error), the
goroutine performs no close of the UDP socket and no close of any
flow.  The returned list is the conn-ids it closes on return. -/
def drainTaskCloses (copyRes : Except String Nat) : List Nat :=
  match copyRes with
  | _ => []

/-- A whole `doAssociate` session after the success reply
(associate.go:60-98): the drain goroutine runs in parallel with
`readFromSrc`; `udpServer.Close()` is deferred to `doAssociate`'s
return, which happens exactly when `readFromSrc` returns.  Given
whether the TCP control connection was closed by the peer and the UDP
events, returns the conn-ids of closed outbound sockets and whether
the UDP socket was closed. -/
def doAssociateSession (ipString : List Nat → String) (tcpClosed : Bool)
    (evs : List UdpEvent) : List Nat × Bool :=
  let drained := drainTaskCloses (if tcpClosed then .error "EOF" else .ok 0)
  let r := readFromSrcLoop ipString evs ⟨[]⟩ drained
  (r.2.1, r.2.2)

/-- Claim C1 names behaviour the code does not have: teardown of the
UDP ASSOCIATE handler is not driven by the TCP control-connection
drain task.  The session outcome is independent of whether the TCP
control connection was closed (first conjunct); with the control
connection closed and no UDP-side error, nothing is closed at all
(second conjunct); teardown does happen on a UDP read error (third
conjunct); and the drain task closes nothing whatever its copy result
(fourth conjunct).  The FIXME at associate.go:61 records the missing
association. -/
theorem C1_teardown_not_driven_by_tcp_drain :
    (∀ (ipS : List Nat → String) (tcp1 tcp2 : Bool) (evs : List UdpEvent),
        doAssociateSession ipS tcp1 evs = doAssociateSession ipS tcp2 evs) ∧
    (∀ (ipS : List Nat → String) (tcpClosed : Bool),
        doAssociateSession ipS tcpClosed [] = ([], false)) ∧
    (∀ (ipS : List Nat → String) (tcpClosed : Bool),
        doAssociateSession ipS tcpClosed [UdpEvent.readErr] = ([], true)) ∧
    (∀ copyRes, drainTaskCloses copyRes = []) := by
  refine ⟨fun ipS tcp1 tcp2 evs => ?_, fun _ _ => ?_, fun _ _ => ?_, fun copyRes => ?_⟩
  · unfold doAssociateSession
    cases tcp1 <;> cases tcp2 <;> rfl
  · cases ‹Bool› <;> rfl
  · cases ‹Bool› <;> rfl
  · cases copyRes <;> rfl

/-- Claim C8: a single flow failure does not affect the loop or other
flows.  First conjunct: a dial failure for an absent key leaves the
flow table unchanged, closes nothing, and the loop continues with the
remaining events.  Second conjunct: a write failure on an existing
flow deletes exactly that key, closes exactly that flow's outbound
socket, and every other key still maps to its old entry. -/
theorem C8_flow_failure_isolation :
    (∀ (ipS : List Nat → String) (f : String) (bs : List Nat) (now : Nat) (e : String)
        (w : Bool) (rest : List UdpEvent) (peers : UdpAssociate) (closed : List Nat)
        (d : Datagram),
        NewDatagramFromByte bs = .ok d →
        peers.Get (f ++ "-" ++ d.Address ipS) = none →
        readFromSrcLoop ipS (UdpEvent.pkt f bs now (.error e) w :: rest) peers closed =
          readFromSrcLoop ipS rest peers closed) ∧
    (∀ (peers : UdpAssociate) (f : String) (ipS : List Nat → String) (d : Datagram)
        (now : Nat) (dial : Except String Nat) (p : UdpPeer),
        peers.Get (f ++ "-" ++ d.Address ipS) = some p →
        (handleDatagram peers f ipS d now dial false).peers =
            peers.Del (f ++ "-" ++ d.Address ipS) ∧
        (handleDatagram peers f ipS d now dial false).closedConns = [p.connId] ∧
        ∀ k, k ≠ f ++ "-" ++ d.Address ipS →
          (handleDatagram peers f ipS d now dial false).peers.Get k = peers.Get k) := by
  constructor
  · intro ipS f bs now e w rest peers closed d hparse hget
    simp only [readFromSrcLoop, hparse, handleDatagram, hget, List.append_nil]
  · intro peers f ipS d now dial p hget
    refine ⟨?_, ?_, ?_⟩
    · simp only [handleDatagram, hget, Bool.false_eq_true, if_false]
    · simp only [handleDatagram, hget, Bool.false_eq_true, if_false]
    · intro k hk
      simp only [handleDatagram, hget, Bool.false_eq_true, if_false]
      exact UdpAssociate.Get_Del_ne peers _ k hk

/-- Witness for C8: a dial failure on the first datagram of a fresh
session (empty flow table) is dropped and the loop goes on. -/
theorem C8_flow_failure_isolation_witness :
    readFromSrcLoop (fun _ => "ip")
        [UdpEvent.pkt "c" [0, 0, 0, 1, 9, 9, 9, 9, 0, 80, 1] 0 (.error "boom") true]
        ⟨[]⟩ [] =
      readFromSrcLoop (fun _ => "ip") [] ⟨[]⟩ [] :=
  C8_flow_failure_isolation.1 (fun _ => "ip") "c" [0, 0, 0, 1, 9, 9, 9, 9, 0, 80, 1]
    0 "boom" true [] ⟨[]⟩ [] ⟨[0, 0], 0, 1, [9, 9, 9, 9], [0, 80], [1]⟩ rfl rfl

/-! Request parsing, the connection driver (C4) and the BIND handler (C5).

The repository's request-parsing file (the declarations `NewRequest`,
`sendReply`, the REP-code and ATYP constants, `AddrSpec`, `proxy`) is
not among the given sources; only its callers (socks5.go,
associate.go, the BIND file) are.  Those parts are therefore modelled
from the specification, as their doc comments state; the driver step
and `doBind` themselves are embedded from the source. -/

def successReply : Nat := 0

def serverFailure : Nat := 1

def addrTypeNotSupported : Nat := 8

/-- The distinguished parse error: `errUnrecognizedAddrType` versus any
other error of `NewRequest`. -/
inductive RequestParseError where
  | unrecognizedAddrType
  | other (msg : String)
deriving Repr, DecidableEq

/-- Modelled from the spec: the parsed request (spec §3 "Request"); the
buffered reader, auth context and remote address are attached by the
driver and carry no content for claim C4. -/
structure RequestL where
  Version : Nat
  Command : Nat
  DestATyp : Nat
  DestAddr : List Nat
  DestPort : Nat
deriving Repr, DecidableEq

/-- Modelled from the spec: `NewRequest`, the request parser, whose
source file is absent.  Spec §4.3: read exactly 4 bytes
`VER, CMD, RSV, ATYP`; fail if VER ≠ 5; read the address by the ATYP
rules of §4.1 (IPv4 4 bytes, IPv6 16 bytes, FQDN length byte plus that
many bytes) and 2 port bytes; an ATYP outside \x7b1,3,4\x7d is the
distinguished address-type-not-supported error. -/
def NewRequest (bs : List Nat) : Except RequestParseError RequestL :=
  match bs with
  | ver :: cmd :: _rsv :: atyp :: rest =>
    if ver ≠ socks5Version then .error (.other "unsupported version")
    else if atyp = ipv4Address then
      if rest.length < 6 then .error (.other "short read")
      else .ok ⟨ver, cmd, atyp, rest.take 4, bigEndianUint16 ((rest.drop 4).take 2)⟩
    else if atyp = ipv6Address then
      if rest.length < 18 then .error (.other "short read")
      else .ok ⟨ver, cmd, atyp, rest.take 16, bigEndianUint16 ((rest.drop 16).take 2)⟩
    else if atyp = fqdnAddress then
      match rest with
      | [] => .error (.other "short read")
      | n :: rest2 =>
        if rest2.length < n + 2 then .error (.other "short read")
        else .ok ⟨ver, cmd, atyp, rest2.take n, bigEndianUint16 ((rest2.drop n).take 2)⟩
    else .error .unrecognizedAddrType
  | _ => .error (.other "short read")

/-- Modelled from the spec: the bytes `sendReply` writes (spec §4.1):
`[VER=5][REP][RSV=0][ATYP][BND.ADDR][BND.PORT]`, with ATYP=IPv4 and a
zero address and port when the reply carries no address. -/
def sendReplyBytes (rep : Nat) (addr : Option (Nat × List Nat × Nat)) : List Nat :=
  match addr with
  | none => [socks5Version, rep, 0, ipv4Address, 0, 0, 0, 0, 0, 0]
  | some (atyp, addrBytes, port) =>
    socks5Version :: rep :: 0 :: atyp :: (addrBytes ++ [port / 256, port % 256])

/-- Embedding of the request-read step of `ServeConn`
(socks5.go:436-445): on `errUnrecognizedAddrType` send one reply with
REP=0x08 and fail; on any other parse error fail without writing; on
success continue with the request.  First component: the bytes written
to the connection in this step. -/
def serveConnRequestPhase (bs : List Nat) : List Nat × Except String RequestL :=
  match NewRequest bs with
  | .ok r => ([], .ok r)
  | .error .unrecognizedAddrType =>
    (sendReplyBytes addrTypeNotSupported none, .error "failed to read destination address")
  | .error (.other _) => ([], .error "failed to read destination address")

/-- Claim C4: for a request whose ATYP is not in \x7b1,3,4\x7d (version
byte correct), parsing fails with the unrecognized-address-type error
and the driver writes exactly one reply frame
`[5, 8, 0, 1, 0,0,0,0, 0,0]` before closing (first conjunct); for
every other parse error, and on success, this step writes nothing
(second and third conjuncts). -/
theorem C4_unrecognized_atyp_reply :
    (∀ (cmd rsv atyp : Nat) (rest : List Nat),
        atyp ≠ ipv4Address → atyp ≠ fqdnAddress → atyp ≠ ipv6Address →
        NewRequest (socks5Version :: cmd :: rsv :: atyp :: rest) =
          .error .unrecognizedAddrType ∧
        serveConnRequestPhase (socks5Version :: cmd :: rsv :: atyp :: rest) =
          ([5, 8, 0, 1, 0, 0, 0, 0, 0, 0], .error "failed to read destination address")) ∧
    (∀ (bs : List Nat) (m : String), NewRequest bs = .error (.other m) →
        (serveConnRequestPhase bs).1 = []) ∧
    (∀ (bs : List Nat) (r : RequestL), NewRequest bs = .ok r →
        (serveConnRequestPhase bs).1 = []) := by
  refine ⟨?_, ?_, ?_⟩
  · intro cmd rsv atyp rest h1 h3 h4
    have hreq : NewRequest (socks5Version :: cmd :: rsv :: atyp :: rest) =
        .error .unrecognizedAddrType := by
      simp [NewRequest, h1, h3, h4]
    refine ⟨hreq, ?_⟩
    unfold serveConnRequestPhase
    rw [hreq]
    simp [sendReplyBytes, addrTypeNotSupported, socks5Version, ipv4Address]
  · intro bs m h
    simp [serveConnRequestPhase, h]
  · intro bs r h
    simp [serveConnRequestPhase, h]

/-- Witness for C4: the spec's scenario S4 bytes
`05 01 00 05 00 00 00 00 00 00` (ATYP=5) draw the single reply
`05 08 00 01 00 00 00 00 00 00`. -/
theorem C4_unrecognized_atyp_reply_witness :
    NewRequest [5, 1, 0, 5, 0, 0, 0, 0, 0, 0] = .error .unrecognizedAddrType ∧
    serveConnRequestPhase [5, 1, 0, 5, 0, 0, 0, 0, 0, 0] =
      ([5, 8, 0, 1, 0, 0, 0, 0, 0, 0], .error "failed to read destination address") :=
  C4_unrecognized_atyp_reply.1 1 0 5 [0, 0, 0, 0, 0, 0] (by decide) (by decide) (by decide)

/-! The BIND handler (doBind) and claim C5. -/

/-- Observable actions of `doBind`, in program order: the global
`BindCallBack` invocation, a `sendReply(conn, rep, addr)` with its REP
code and bound address (nil modelled as `none`), the accept of one
inbound connection with its remote address, and the start of the
bidirectional relay (the two `proxy` goroutines). -/
inductive BindEvent where
  | callbackInvoked (addr : String)
  | reply (rep : Nat) (addr : Option (List Nat × Nat))
  | acceptedConn (peerIP : List Nat) (peerPort : Nat)
  | relayStarted
deriving Repr, DecidableEq

/-- Embedding of `doBind` (BIND source file, lines 18-98) as its trace
of observable actions plus its returned error.  `destAddr` is the
request's destination — the source never reads it (the peer-address
check is commented out as a TODO); `listenRes` is the environment's
answer to `net.Listen("tcp", "0.0.0.0:0")` (listener address string
and port), `cbSet` whether the global `BindCallBack` is set,
`acceptRes` the accepted connection's remote IP and port (the
`SplitHostPort` of an accepted connection's remote address always
succeeds and its error branch is not modelled).  The accept loop
breaks after the first successful accept. -/
def doBind (bindIP : List Nat) (destAddr : List Nat × Nat)
    (listenRes : Except String (String × Nat)) (cbSet : Bool)
    (acceptRes : Except String (List Nat × Nat)) : List BindEvent × Option String :=
  match listenRes with
  | .error e => ([.reply serverFailure none], some ("doBind Listen fail: " ++ e))
  | .ok (laddr, bindPort) =>
    let evs0 := if cbSet then [BindEvent.callbackInvoked laddr] else []
    let evs1 := evs0 ++ [.reply successReply (some (bindIP, bindPort))]
    match acceptRes with
    | .error e => (evs1 ++ [.reply serverFailure none], some ("doBind Accept fail: " ++ e))
    | .ok (peerIP, peerPort) =>
      (evs1 ++ [.acceptedConn peerIP peerPort,
        .reply successReply (some (peerIP, peerPort)), .relayStarted], none)

/-- Recognizer for accept events in a `doBind` trace. -/
def isAcceptEvent : BindEvent → Bool
  | .acceptedConn _ _ => true
  | _ => false

/-- Claim C5: on the happy path `doBind` emits, in order, the first
reply with REP=0 carrying \x7bbindIP, listener port\x7d, exactly one
accepted inbound connection, the second reply with REP=0 carrying the
accepted connection's remote address, and only then the relay (first
conjunct: the whole trace; third conjunct: the accept count is one);
and its behaviour never depends on the request's destination — no
peer-address comparison (second conjunct). -/
theorem C5_bind_two_stage_reply :
    (∀ (bindIP : List Nat) (dest : List Nat × Nat) (laddr : String) (port : Nat)
        (cbSet : Bool) (peerIP : List Nat) (peerPort : Nat),
        doBind bindIP dest (.ok (laddr, port)) cbSet (.ok (peerIP, peerPort)) =
          ((if cbSet then [BindEvent.callbackInvoked laddr] else []) ++
            [.reply successReply (some (bindIP, port)),
             .acceptedConn peerIP peerPort,
             .reply successReply (some (peerIP, peerPort)),
             .relayStarted], none)) ∧
    (∀ (bindIP : List Nat) (dest1 dest2 : List Nat × Nat)
        (listenRes : Except String (String × Nat)) (cbSet : Bool)
        (acceptRes : Except String (List Nat × Nat)),
        doBind bindIP dest1 listenRes cbSet acceptRes =
          doBind bindIP dest2 listenRes cbSet acceptRes) ∧
    (∀ (bindIP : List Nat) (dest : List Nat × Nat) (laddr : String) (port : Nat)
        (cbSet : Bool) (peerIP : List Nat) (peerPort : Nat),
        ((doBind bindIP dest (.ok (laddr, port)) cbSet (.ok (peerIP, peerPort))).1.countP
            isAcceptEvent) = 1) := by
  refine ⟨?_, ?_, ?_⟩
  · intro bindIP dest laddr port cbSet peerIP peerPort
    cases cbSet <;> simp [doBind]
  · intro bindIP dest1 dest2 listenRes cbSet acceptRes
    rfl
  · intro bindIP dest laddr port cbSet peerIP peerPort
    cases cbSet <;> simp [doBind, List.countP_cons, List.countP_append, isAcceptEvent]

end GoSocks5
